import Mathlib

/-!
Verification of the dgGit clipboard-to-file utility (src/main.go).

The program is embedded shallowly: Go strings become `List Char`, the
key=value config parser and serializer become pure Lean functions, and the
effectful parts of `main` (dialogs, clipboard, file system, registry) are
modelled by passing their observable outcomes as explicit parameters and
recording the effects the program would perform in explicit result values.
-/

namespace DgGit

/-- Whitespace predicate used by Go's strings.TrimSpace (unicode.IsSpace). -/
def isGoSpace (c : Char) : Bool :=
  c = ' ' || c = '\t' || c = '\n' || c = '\x0b' || c = '\x0c' || c = '\r' ||
  c = '\u0085' || c = '\u00A0' || c = '\u1680' ||
  (('\u2000' ≤ c) && (c ≤ '\u200A')) ||
  c = '\u2028' || c = '\u2029' || c = '\u202F' || c = '\u205F' || c = '\u3000'

/-- Drop characters satisfying p from the left end (Go strings.TrimLeft). -/
def ltrimBy (p : Char → Bool) (s : List Char) : List Char :=
  s.dropWhile p

/-- Drop characters satisfying p from the right end (Go strings.TrimRight). -/
def rtrimBy (p : Char → Bool) (s : List Char) : List Char :=
  (s.reverse.dropWhile p).reverse

/-- Drop characters satisfying p from both ends (Go strings.Trim). -/
def trimBy (p : Char → Bool) (s : List Char) : List Char :=
  rtrimBy p (ltrimBy p s)

/-- Go strings.TrimSpace. -/
def trimSpace (s : List Char) : List Char :=
  trimBy isGoSpace s

/-- The double-quote character, the cutset of strings.Trim(val, "\x22"). -/
def isQuoteChar (c : Char) : Bool :=
  c = '\x22'

/-- Go strings.Trim(s, "\x22") as used on the PrefixToStrip value. -/
def trimQuotes (s : List Char) : List Char :=
  trimBy isQuoteChar s

/-- Go strings.Split(s, sep) for a one-character separator: always returns at
least one (possibly empty) part. -/
def splitOnChar (sep : Char) : List Char → List (List Char)
  | [] => [[]]
  | c :: cs =>
    if c = sep then [] :: splitOnChar sep cs
    else
      match splitOnChar sep cs with
      | [] => [[c]]
      | l :: ls => (c :: l) :: ls

/-- Go strings.SplitN(s, sep, 2) for a one-character separator: `some (a, b)`
when the separator occurs (split at its first occurrence), `none` when the
separator is absent (Go then returns a single part, which loadConfig skips). -/
def splitFirst (sep : Char) : List Char → Option (List Char × List Char)
  | [] => none
  | c :: cs =>
    if c = sep then some ([], cs)
    else (splitFirst sep cs).map (fun q => (c :: q.1, q.2))

/-- Go strings.ToLower restricted to ASCII case mapping. -/
def toLowerStr (s : List Char) : List Char :=
  s.map Char.toLower

/-- Go strings.ReplaceAll(s, old, new) for one-character old and new. -/
def replaceAllChar (old new : Char) (s : List Char) : List Char :=
  s.map (fun c => if c = old then new else c)

/-- Go strings.ReplaceAll(s, CR, empty-string). -/
def removeCR (s : List Char) : List Char :=
  s.filter (fun c => ¬ c = '\r')

/-- Go strings.HasPrefix(s, pat). -/
def hasPfx : List Char → List Char → Bool
  | _, [] => true
  | [], _ :: _ => false
  | c :: cs, p :: ps => c = p && hasPfx cs ps

/-- Go strings.TrimPfx-style removal (strings.TrimPrefix(s, pat)). -/
def trimPfxStr (s pat : List Char) : List Char :=
  if hasPfx s pat then s.drop pat.length else s

/-- The Config struct of main.go. -/
structure Config where
  StartDir : List Char
  Extension : List Char
  PrefixToStrip : List Char
  ShowSuccess : Bool
  AutoSave : Bool
  GitAutoCommit : Bool
deriving DecidableEq, Repr

/-- The built-in defaults loadConfig starts from when the file exists. -/
def dgDefaultConfig : Config :=
  { StartDir := ".".data
    Extension := ".dg".data
    PrefixToStrip := "void ".data
    ShowSuccess := true
    AutoSave := false
    GitAutoCommit := false }

/-- The Go zero value Config\x7b\x7d returned by a cancelled setup wizard. -/
def emptyConfig : Config :=
  { StartDir := []
    Extension := []
    PrefixToStrip := []
    ShowSuccess := false
    AutoSave := false
    GitAutoCommit := false }

/-- The switch body of loadConfig: apply one parsed key/value pair, where key
is already lower-cased and trimmed and val is already trimmed. -/
def applyKV (cfg : Config) (key val : List Char) : Config :=
  if key = "startdir".data then { cfg with StartDir := val }
  else if key = "extension".data then { cfg with Extension := val }
  else if key = "prefixtostrip".data then { cfg with PrefixToStrip := trimQuotes val }
  else if key = "showsuccessmessage".data then { cfg with ShowSuccess := decide (val = "true".data) }
  else if key = "autosave".data then { cfg with AutoSave := decide (val = "true".data) }
  else if key = "gitautocommit".data then { cfg with GitAutoCommit := decide (val = "true".data) }
  else cfg

/-- The loop body of loadConfig's scanner loop, for one raw line. -/
def processLine (cfg : Config) (raw : List Char) : Config :=
  let line := trimSpace raw
  if line = [] then cfg
  else if line.head? = some '#' then cfg
  else
    match splitFirst '=' line with
    | none => cfg
    | some q => applyKV cfg (toLowerStr (trimSpace q.1)) (trimSpace q.2)

/-- The parsing phase of loadConfig, applied to the full text of an existing
config file: the scanner yields the newline-separated lines (a trailing empty
line is harmless because blank lines are skipped), and each line is folded
over the defaults. -/
def loadConfigFromContent (content : List Char) : Config :=
  (splitOnChar '\n' content).foldl processLine dgDefaultConfig

/-- Go fmt %t formatting of a bool. -/
def fmtBool (b : Bool) : List Char :=
  if b then "true".data else "false".data

/-- The lines of the template written by saveConfigToFile, with the three %s
and three %t placeholders filled in from cfg. -/
def configFileLines (cfg : Config) : List (List Char) :=
  [ "# dgGit Configuration File".data,
    [],
    "# 1. Default Save Directory".data,
    "# The folder where files will save (unless you right-click a specific folder).".data,
    "StartDir=".data ++ cfg.StartDir,
    [],
    "# 2. File Extension".data,
    "# The extension appended to saved files (e.g. .dg, .txt, .js)".data,
    "Extension=".data ++ cfg.Extension,
    [],
    "# 3. Clipboard Cleaning".data,
    "# Text to automatically remove from the start of the filename.".data,
    "# You can separate multiple options with a pipe symbol \x22|\x22.".data,
    "# Example: \x22void |int |string \x22".data,
    "PrefixToStrip=".data ++ cfg.PrefixToStrip,
    [],
    "# 4. User Interface".data,
    "# Show a popup message when a file is saved successfully? (true/false)".data,
    "ShowSuccessMessage=".data ++ fmtBool cfg.ShowSuccess,
    [],
    "# 5. Automation".data,
    "# Save immediately to StartDir without showing the folder browser? (true/false)".data,
    "AutoSave=".data ++ fmtBool cfg.AutoSave,
    [],
    "# 6. Version Control".data,
    "# Automatically run \x27git add\x27 and \x27git commit\x27 after saving? (true/false)".data,
    "# Note: Git must be installed and the target folder must be a git repo.".data,
    "GitAutoCommit=".data ++ fmtBool cfg.GitAutoCommit ]

/-- Join lines, terminating each with a newline (the Go template ends in a
final newline). -/
def joinLinesNL (L : List (List Char)) : List Char :=
  L.foldr (fun l acc => l ++ '\n' :: acc) []

/-- The file content written by saveConfigToFile(path, cfg). -/
def saveConfigContent (cfg : Config) : List Char :=
  joinLinesNL (configFileLines cfg)

/-- The characters main.go's sanitizeFilename replaces, in source order. -/
def illegalChars : List Char :=
  ['<', '>', ':', '\x22', '/', '\\', '|', '?', '*']

/-- sanitizeFilename of main.go: each illegal character becomes an
underscore. -/
def sanitizeFilename (name : List Char) : List Char :=
  illegalChars.foldl (fun acc c => replaceAllChar c '_' acc) name

/-- Pointwise description of the sanitization: each illegal character maps to
an underscore, all other characters are kept. -/
def substIllegal (c : Char) : Char :=
  if c ∈ illegalChars then '_' else c

/-- The for-loop over the pipe-separated candidates in main: the first
non-empty candidate matching the start of the first line is removed and the
loop breaks; otherwise the line is kept. -/
def stripLoop (firstLine : List Char) : List (List Char) → List Char
  | [] => firstLine
  | p :: ps =>
    if p ≠ [] && hasPfx firstLine p then trimPfxStr firstLine p
    else stripLoop firstLine ps

/-- Step 5 of main: filenameRaw after the optional first-match removal,
guarded by cfg.PrefixToStrip being non-empty. -/
def stripFirstMatching (pfxSet firstLine : List Char) : List Char :=
  if pfxSet = [] then firstLine
  else stripLoop firstLine (splitOnChar '|' pfxSet)

/-- The first line of the clipboard content as main computes it:
strings.Split on newline, index 0, carriage returns removed, trimmed. -/
def firstLineOf (content : List Char) : List Char :=
  trimSpace (removeCR ((splitOnChar '\n' content).headD []))

/-- safeFilename of main: sanitize the re-trimmed stripped line and append the
configured extension. -/
def deriveSafeFilename (cfg : Config) (content : List Char) : List Char :=
  sanitizeFilename (trimSpace (stripFirstMatching cfg.PrefixToStrip (firstLineOf content)))
    ++ cfg.Extension

/-- Observable effects of one run of main's save pipeline (steps 4-9). -/
structure Effects where
  fileWritten : Option (List Char)
  errorDialog : Bool
  gitRan : Bool
  clipboardCleared : Bool
  successShown : Bool
deriving DecidableEq, Repr

/-- The silent no-op outcome: nothing written, no dialog, no later step. -/
def noEffects : Effects :=
  { fileWritten := none
    errorDialog := false
    gitRan := false
    clipboardCleared := false
    successShown := false }

/-- Steps 4-9 of main, after the save directory is resolved: clipboard read
(`none` models a read error), empty checks, file write (writeOk models the
os.WriteFile outcome), git auto-commit, clipboard clear, success dialog. -/
def runPipeline (cfg : Config) (clip : Option (List Char)) (writeOk : Bool) : Effects :=
  match clip with
  | none => noEffects
  | some content =>
    if content = [] then noEffects
    else if firstLineOf content = [] then noEffects
    else if writeOk = false then { noEffects with errorDialog := true }
    else
      { fileWritten := some (deriveSafeFilename cfg content)
        errorDialog := false
        gitRan := cfg.GitAutoCommit
        clipboardCleared := true
        successShown := cfg.ShowSuccess }

/-- Step 3 of main: resolve the save directory. args are the user-supplied
command-line arguments, startDirExists models os.Stat on cfg.StartDir, and
dialogResult models askForFolder (empty on cancel). The second component
records whether the interactive folder prompt was shown. -/
def resolveSaveDir (args : List (List Char)) (cfg : Config) (startDirExists : Bool)
    (dialogResult : List Char) : List Char × Bool :=
  match args with
  | a :: _ => (trimSpace a, false)
  | [] =>
    if cfg.AutoSave then
      if startDirExists then (cfg.StartDir, false)
      else (dialogResult, true)
    else (dialogResult, true)

/-- How far one invocation of main gets, per its early returns. -/
inductive RunOutcome where
  | exitCancelled
  | exitRegistryError
  | exitFirstRun
  | savePhase
deriving DecidableEq, Repr

/-- Steps 1-2 of main: the cancellation check after loadConfig, the registry
update, and the first-run early return; only then does main reach the save
phase (directory resolution and the save pipeline). -/
def mainFlow (cancelled isFirstRun registryOk : Bool) : RunOutcome :=
  if cancelled then RunOutcome.exitCancelled
  else if registryOk = false then RunOutcome.exitRegistryError
  else if isFirstRun then RunOutcome.exitFirstRun
  else RunOutcome.savePhase

/-- runSetupWizard of main.go over the outcomes of its dialogs. dirRes models
the directory browser (`none` on error/cancel), extRes and pfxRes model the
two text-entry dialogs (`none` when success is false), and the three yes/no
questions return an answer plus an error flag that the Go code discards with
a blank identifier. The result is the returned Config, the cancelled flag,
and whether saveConfigToFile was invoked. -/
def runSetupWizard (dirRes extRes pfxRes : Option (List Char))
    (gitAns autoAns shortcutAns : Bool × Bool) : Config × Bool × Bool :=
  match dirRes with
  | none => (emptyConfig, true, false)
  | some startDir =>
    match extRes with
    | none => (emptyConfig, true, false)
    | some ext =>
      match pfxRes with
      | none => (emptyConfig, true, false)
      | some pfx =>
        let useGit := gitAns.1
        let autoSave := autoAns.1
        let _createShortcut := shortcutAns.1
        let newCfg : Config :=
          { StartDir := startDir
            Extension := ext
            PrefixToStrip := pfx
            ShowSuccess := true
            AutoSave := autoSave
            GitAutoCommit := useGit }
        (newCfg, false, true)

/-- The six keys loadConfig's switch recognizes, lower-cased. -/
def recognizedKeys : List (List Char) :=
  [ "startdir".data, "extension".data, "prefixtostrip".data,
    "showsuccessmessage".data, "autosave".data, "gitautocommit".data ]

/-- The lower-cased trimmed key a line contributes to loadConfig's switch, or
`none` when the line is skipped (blank, comment, or no equals sign). -/
def effectiveKeyOf (raw : List Char) : Option (List Char) :=
  let line := trimSpace raw
  if line = [] then none
  else if line.head? = some '#' then none
  else
    match splitFirst '=' line with
    | none => none
    | some q => some (toLowerStr (trimSpace q.1))

/-- Two configurations agree on the field selected by a recognized key. -/
def agreeOn (key : List Char) (a b : Config) : Prop :=
  if key = "startdir".data then a.StartDir = b.StartDir
  else if key = "extension".data then a.Extension = b.Extension
  else if key = "prefixtostrip".data then a.PrefixToStrip = b.PrefixToStrip
  else if key = "showsuccessmessage".data then a.ShowSuccess = b.ShowSuccess
  else if key = "autosave".data then a.AutoSave = b.AutoSave
  else if key = "gitautocommit".data then a.GitAutoCommit = b.GitAutoCommit
  else True

/-! Helper lemmas about splitting and trimming. -/

lemma dropWhile_append_mid (p : Char → Bool) (c : Char) (hc : p c = false) (a b : List Char) :
    (a ++ c :: b).dropWhile p = a.dropWhile p ++ c :: b := by
  induction a with
  | nil => simp [List.dropWhile_cons, hc]
  | cons x xs ih =>
    by_cases hx : p x
    · simpa [List.dropWhile_cons, hx] using ih
    · simp [List.dropWhile_cons, hx]

lemma dropWhile_idem (p : Char → Bool) (l : List Char) :
    (l.dropWhile p).dropWhile p = l.dropWhile p := by
  induction l with
  | nil => rfl
  | cons x xs ih =>
    by_cases hx : p x
    · simpa [List.dropWhile_cons, hx] using ih
    · simp [List.dropWhile_cons, hx]

lemma ltrimBy_append_mid (p : Char → Bool) (c : Char) (hc : p c = false) (a b : List Char) :
    ltrimBy p (a ++ c :: b) = ltrimBy p a ++ c :: b :=
  dropWhile_append_mid p c hc a b

lemma rtrimBy_append_mid (p : Char → Bool) (c : Char) (hc : p c = false) (a b : List Char) :
    rtrimBy p (a ++ c :: b) = a ++ c :: rtrimBy p b := by
  unfold rtrimBy
  rw [List.reverse_append, List.reverse_cons, List.append_assoc, List.singleton_append,
    dropWhile_append_mid p c hc, List.reverse_append, List.reverse_cons, List.reverse_reverse]
  simp

lemma trimSpace_keyline (c : Char) (hc : isGoSpace c = false) (a b : List Char) :
    trimSpace (a ++ c :: b) = ltrimBy isGoSpace a ++ c :: rtrimBy isGoSpace b := by
  unfold trimSpace trimBy
  rw [ltrimBy_append_mid isGoSpace c hc, rtrimBy_append_mid isGoSpace c hc]

lemma ltrimBy_idem (p : Char → Bool) (s : List Char) :
    ltrimBy p (ltrimBy p s) = ltrimBy p s :=
  dropWhile_idem p s

lemma rtrimBy_idem (p : Char → Bool) (s : List Char) :
    rtrimBy p (rtrimBy p s) = rtrimBy p s := by
  unfold rtrimBy
  rw [List.reverse_reverse, dropWhile_idem]

lemma rtrimBy_decomp (p : Char → Bool) (s : List Char) :
    s = rtrimBy p s ++ (s.reverse.takeWhile p).reverse := by
  unfold rtrimBy
  rw [← List.reverse_append, List.takeWhile_append_dropWhile, List.reverse_reverse]

lemma head?_rtrimBy (p : Char → Bool) (s : List Char) (h : rtrimBy p s ≠ []) :
    (rtrimBy p s).head? = s.head? := by
  conv_rhs => rw [rtrimBy_decomp p s]
  match hm : rtrimBy p s with
  | [] => exact absurd hm h
  | c :: cs => simp

lemma dropWhile_length_le (p : Char → Bool) (l : List Char) :
    (l.dropWhile p).length ≤ l.length := by
  induction l with
  | nil => simp
  | cons x xs ih =>
    by_cases hx : p x
    · rw [List.dropWhile_cons_of_pos hx]
      exact Nat.le_succ_of_le ih
    · rw [List.dropWhile_cons_of_neg hx]

lemma ltrimBy_eq_self_head (p : Char → Bool) (c : Char) (cs : List Char)
    (h : ltrimBy p (c :: cs) = c :: cs) : p c = false := by
  by_contra hc
  rw [Bool.not_eq_false] at hc
  have hlth := congrArg List.length h
  rw [ltrimBy, List.dropWhile_cons_of_pos hc] at hlth
  have hlen := dropWhile_length_le p cs
  simp at hlth
  omega

lemma ltrimBy_rtrimBy_of (p : Char → Bool) (x : List Char) (h : ltrimBy p x = x) :
    ltrimBy p (rtrimBy p x) = rtrimBy p x := by
  match hm : rtrimBy p x with
  | [] => rfl
  | c :: cs =>
    have hx : x.head? = some c := by
      rw [← head?_rtrimBy p x (by rw [hm]; simp), hm]; rfl
    match x, hx with
    | y :: ys, hx =>
      have hy : y = c := by simpa using hx
      subst hy
      have hp : p y = false := ltrimBy_eq_self_head p y ys h
      rw [ltrimBy, List.dropWhile_cons_of_neg (by simp [hp])]

lemma trimBy_idem (p : Char → Bool) (s : List Char) :
    trimBy p (trimBy p s) = trimBy p s := by
  unfold trimBy
  rw [ltrimBy_rtrimBy_of p (ltrimBy p s) (ltrimBy_idem p s), rtrimBy_idem]

lemma trimSpace_idem (s : List Char) : trimSpace (trimSpace s) = trimSpace s :=
  trimBy_idem isGoSpace s

lemma splitOnChar_no_sep (sep : Char) (s : List Char) (h : sep ∉ s) :
    splitOnChar sep s = [s] := by
  induction s with
  | nil => rfl
  | cons c cs ih =>
    simp only [List.mem_cons, not_or] at h
    rw [splitOnChar, if_neg (fun hh => h.1 hh.symm), ih h.2]

lemma splitOnChar_append_sep (sep : Char) (s t : List Char) (h : sep ∉ s) :
    splitOnChar sep (s ++ sep :: t) = s :: splitOnChar sep t := by
  induction s with
  | nil => simp [splitOnChar]
  | cons c cs ih =>
    simp only [List.mem_cons, not_or] at h
    rw [List.cons_append, splitOnChar, if_neg (fun hh => h.1 hh.symm), ih h.2]

lemma splitOnChar_joinNL (L : List (List Char)) (h : ∀ l ∈ L, '\n' ∉ l) :
    splitOnChar '\n' (joinLinesNL L) = L ++ [[]] := by
  induction L with
  | nil => rfl
  | cons l ls ih =>
    have hl : '\n' ∉ l := h l (by simp)
    have hrest : ∀ x ∈ ls, '\n' ∉ x := fun x hx => h x (by simp [hx])
    show splitOnChar '\n' (l ++ '\n' :: joinLinesNL ls) = (l :: ls) ++ [[]]
    rw [splitOnChar_append_sep '\n' l _ hl, ih hrest]
    rfl

lemma splitFirst_of_no_sep (sep : Char) (s : List Char) (h : sep ∉ s) :
    splitFirst sep s = none := by
  induction s with
  | nil => rfl
  | cons c cs ih =>
    simp only [List.mem_cons, not_or] at h
    rw [splitFirst, if_neg (fun hh => h.1 hh.symm), ih h.2]
    rfl

lemma splitFirst_append_sep (sep : Char) (s t : List Char) (h : sep ∉ s) :
    splitFirst sep (s ++ sep :: t) = some (s, t) := by
  induction s with
  | nil => simp [splitFirst]
  | cons c cs ih =>
    simp only [List.mem_cons, not_or] at h
    rw [List.cons_append, splitFirst, if_neg (fun hh => h.1 hh.symm), ih h.2]
    rfl

/-! Helper lemmas about the config parser. -/

lemma processLine_blank (cfg : Config) (raw : List Char) (h : trimSpace raw = []) :
    processLine cfg raw = cfg := by
  unfold processLine
  rw [h]
  simp

lemma processLine_comment (cfg : Config) (raw : List Char)
    (h : (trimSpace raw).head? = some '#') : processLine cfg raw = cfg := by
  unfold processLine
  have hne : trimSpace raw ≠ [] := by
    intro h0
    rw [h0] at h
    simp at h
  rw [if_neg hne, if_pos h]

lemma processLine_parsed (cfg : Config) (raw k v : List Char)
    (h : splitFirst '=' (trimSpace raw) = some (k, v))
    (hh : (trimSpace raw).head? ≠ some '#') :
    processLine cfg raw = applyKV cfg (toLowerStr (trimSpace k)) (trimSpace v) := by
  unfold processLine
  have hne : trimSpace raw ≠ [] := by
    intro h0
    rw [h0] at h
    simp [splitFirst] at h
  rw [if_neg hne, if_neg hh, h]

lemma processLine_no_eq (cfg : Config) (raw : List Char)
    (h : splitFirst '=' (trimSpace raw) = none) : processLine cfg raw = cfg := by
  unfold processLine
  by_cases h1 : trimSpace raw = []
  · rw [if_pos h1]
  · rw [if_neg h1]
    by_cases h2 : (trimSpace raw).head? = some '#'
    · rw [if_pos h2]
    · rw [if_neg h2, h]

lemma foldl_step (acc acc2 : Config) (l : List Char) (rest : List (List Char))
    (h : processLine acc l = acc2) :
    List.foldl processLine acc (l :: rest) = List.foldl processLine acc2 rest := by
  rw [List.foldl_cons, h]

lemma applyKV_unrecognized (cfg : Config) (key val : List Char)
    (h : key ∉ recognizedKeys) : applyKV cfg key val = cfg := by
  simp only [recognizedKeys, List.mem_cons, List.mem_singleton, not_or] at h
  obtain ⟨h1, h2, h3, h4, h5, h6⟩ := h
  simp [applyKV, h1, h2, h3, h4, h5, h6]

lemma applyKV_StartDir (cfg : Config) (key val : List Char) (h : key ≠ "startdir".data) :
    (applyKV cfg key val).StartDir = cfg.StartDir := by
  unfold applyKV
  split_ifs <;> first | rfl | (exfalso; apply h; assumption)

lemma applyKV_Extension (cfg : Config) (key val : List Char) (h : key ≠ "extension".data) :
    (applyKV cfg key val).Extension = cfg.Extension := by
  unfold applyKV
  split_ifs <;> first | rfl | (exfalso; apply h; assumption)

lemma applyKV_PrefixToStrip (cfg : Config) (key val : List Char)
    (h : key ≠ "prefixtostrip".data) :
    (applyKV cfg key val).PrefixToStrip = cfg.PrefixToStrip := by
  unfold applyKV
  split_ifs <;> first | rfl | (exfalso; apply h; assumption)

lemma applyKV_ShowSuccess (cfg : Config) (key val : List Char)
    (h : key ≠ "showsuccessmessage".data) :
    (applyKV cfg key val).ShowSuccess = cfg.ShowSuccess := by
  unfold applyKV
  split_ifs <;> first | rfl | (exfalso; apply h; assumption)

lemma applyKV_AutoSave (cfg : Config) (key val : List Char) (h : key ≠ "autosave".data) :
    (applyKV cfg key val).AutoSave = cfg.AutoSave := by
  unfold applyKV
  split_ifs <;> first | rfl | (exfalso; apply h; assumption)

lemma applyKV_GitAutoCommit (cfg : Config) (key val : List Char)
    (h : key ≠ "gitautocommit".data) :
    (applyKV cfg key val).GitAutoCommit = cfg.GitAutoCommit := by
  unfold applyKV
  split_ifs <;> first | rfl | (exfalso; apply h; assumption)

lemma applyKV_agree (cfg : Config) (key val K : List Char) (h : key ≠ K) :
    agreeOn K (applyKV cfg key val) cfg := by
  unfold agreeOn
  split_ifs with k1 k2 k3 k4 k5 k6
  · exact applyKV_StartDir cfg key val (k1 ▸ h)
  · exact applyKV_Extension cfg key val (k2 ▸ h)
  · exact applyKV_PrefixToStrip cfg key val (k3 ▸ h)
  · exact applyKV_ShowSuccess cfg key val (k4 ▸ h)
  · exact applyKV_AutoSave cfg key val (k5 ▸ h)
  · exact applyKV_GitAutoCommit cfg key val (k6 ▸ h)

lemma agreeOn_refl (K : List Char) (c : Config) : agreeOn K c c := by
  unfold agreeOn
  split_ifs <;> trivial

lemma agreeOn_trans (K : List Char) (a b c : Config)
    (h1 : agreeOn K a b) (h2 : agreeOn K b c) : agreeOn K a c := by
  unfold agreeOn at *
  split_ifs at * <;> simp_all

lemma processLine_agree (cfg : Config) (raw K : List Char)
    (h : effectiveKeyOf raw ≠ some K) : agreeOn K (processLine cfg raw) cfg := by
  by_cases h1 : trimSpace raw = []
  · rw [processLine_blank cfg raw h1]
    exact agreeOn_refl K cfg
  · by_cases h2 : (trimSpace raw).head? = some '#'
    · rw [processLine_comment cfg raw h2]
      exact agreeOn_refl K cfg
    · match hs : splitFirst '=' (trimSpace raw) with
      | none =>
        rw [processLine_no_eq cfg raw hs]
        exact agreeOn_refl K cfg
      | some (k, v) =>
        rw [processLine_parsed cfg raw k v hs h2]
        apply applyKV_agree
        intro hk
        apply h
        unfold effectiveKeyOf
        rw [if_neg h1, if_neg h2, hs]
        show some (toLowerStr (trimSpace k)) = some K
        rw [hk]

lemma foldl_processLine_agree (lines : List (List Char)) (cfg : Config) (K : List Char)
    (h : ∀ l ∈ lines, effectiveKeyOf l ≠ some K) :
    agreeOn K (lines.foldl processLine cfg) cfg := by
  induction lines generalizing cfg with
  | nil => exact agreeOn_refl K cfg
  | cons l ls ih =>
    rw [List.foldl_cons]
    exact agreeOn_trans K _ _ _
      (ih (processLine cfg l) (fun x hx => h x (by simp [hx])))
      (processLine_agree cfg l K (h l (by simp)))

/-! Helper lemmas about filename derivation. -/

lemma stripLoop_no_match (line : List Char) (ps : List (List Char))
    (h : ∀ p ∈ ps, p ≠ [] → hasPfx line p = false) : stripLoop line ps = line := by
  induction ps with
  | nil => rfl
  | cons p rest ih =>
    rw [stripLoop]
    by_cases hp : p = []
    · rw [if_neg (by simp [hp])]
      exact ih (fun x hx => h x (by simp [hx]))
    · rw [h p (by simp) hp]
      rw [if_neg (by simp)]
      exact ih (fun x hx => h x (by simp [hx]))

lemma substIllegal_pointwise (c : Char) :
    substIllegal c =
      (fun x => if x = '*' then '_' else x)
      ((fun x => if x = '?' then '_' else x)
      ((fun x => if x = '|' then '_' else x)
      ((fun x => if x = '\\' then '_' else x)
      ((fun x => if x = '/' then '_' else x)
      ((fun x => if x = '\x22' then '_' else x)
      ((fun x => if x = ':' then '_' else x)
      ((fun x => if x = '>' then '_' else x)
      ((fun x => if x = '<' then '_' else x) c)))))))) := by
  by_cases h1 : c = '<'
  · subst h1; rfl
  by_cases h2 : c = '>'
  · subst h2; rfl
  by_cases h3 : c = ':'
  · subst h3; rfl
  by_cases h4 : c = '\x22'
  · subst h4; rfl
  by_cases h5 : c = '/'
  · subst h5; rfl
  by_cases h6 : c = '\\'
  · subst h6; rfl
  by_cases h7 : c = '|'
  · subst h7; rfl
  by_cases h8 : c = '?'
  · subst h8; rfl
  by_cases h9 : c = '*'
  · subst h9; rfl
  have hmem : c ∉ illegalChars := by
    simp [illegalChars, h1, h2, h3, h4, h5, h6, h7, h8, h9]
  simp only [substIllegal, if_neg hmem, if_neg h1, if_neg h2, if_neg h3, if_neg h4,
    if_neg h5, if_neg h6, if_neg h7, if_neg h8, if_neg h9]

lemma sanitizeFilename_cons (c : Char) (cs : List Char) :
    sanitizeFilename (c :: cs) = substIllegal c :: sanitizeFilename cs := by
  rw [substIllegal_pointwise c]
  rfl

lemma sanitizeFilename_eq_map (name : List Char) :
    sanitizeFilename name = name.map substIllegal := by
  induction name with
  | nil => rfl
  | cons c cs ih => rw [sanitizeFilename_cons, List.map_cons, ih]

/-! Evaluation of processLine on the exact lines saveConfigToFile writes. -/

lemma applyKV_key_startdir (acc : Config) (val : List Char) :
    applyKV acc "startdir".data val = { acc with StartDir := val } := by
  unfold applyKV
  rw [if_pos rfl]

lemma applyKV_key_extension (acc : Config) (val : List Char) :
    applyKV acc "extension".data val = { acc with Extension := val } := by
  unfold applyKV
  rw [if_neg (by decide), if_pos rfl]

lemma applyKV_key_prefixtostrip (acc : Config) (val : List Char) :
    applyKV acc "prefixtostrip".data val = { acc with PrefixToStrip := trimQuotes val } := by
  unfold applyKV
  rw [if_neg (by decide), if_neg (by decide), if_pos rfl]

lemma applyKV_key_showsuccess (acc : Config) (val : List Char) :
    applyKV acc "showsuccessmessage".data val
      = { acc with ShowSuccess := decide (val = "true".data) } := by
  unfold applyKV
  rw [if_neg (by decide), if_neg (by decide), if_neg (by decide), if_pos rfl]

lemma applyKV_key_autosave (acc : Config) (val : List Char) :
    applyKV acc "autosave".data val = { acc with AutoSave := decide (val = "true".data) } := by
  unfold applyKV
  rw [if_neg (by decide), if_neg (by decide), if_neg (by decide), if_neg (by decide),
    if_pos rfl]

lemma applyKV_key_gitautocommit (acc : Config) (val : List Char) :
    applyKV acc "gitautocommit".data val
      = { acc with GitAutoCommit := decide (val = "true".data) } := by
  unfold applyKV
  rw [if_neg (by decide), if_neg (by decide), if_neg (by decide), if_neg (by decide),
    if_neg (by decide), if_pos rfl]

lemma processLine_line_startdir (acc : Config) (d : List Char) :
    processLine acc ("StartDir=".data ++ d)
      = { acc with StartDir := trimSpace (rtrimBy isGoSpace d) } := by
  have e1 : "StartDir=".data ++ d = "StartDir".data ++ '=' :: d := rfl
  have e2 : trimSpace ("StartDir".data ++ '=' :: d)
      = "StartDir".data ++ '=' :: rtrimBy isGoSpace d := by
    rw [trimSpace_keyline '=' (by decide) _ _,
      show ltrimBy isGoSpace "StartDir".data = "StartDir".data from by decide]
  have e3 : splitFirst '=' (trimSpace ("StartDir".data ++ '=' :: d))
      = some ("StartDir".data, rtrimBy isGoSpace d) := by
    rw [e2]
    exact splitFirst_append_sep '=' _ _ (by decide)
  have e4 : (trimSpace ("StartDir".data ++ '=' :: d)).head? ≠ some '#' := by
    rw [e2, show ("StartDir".data ++ '=' :: rtrimBy isGoSpace d).head? = some 'S' from rfl]
    decide
  rw [e1, processLine_parsed acc _ _ _ e3 e4]
  have e5 : toLowerStr (trimSpace "StartDir".data) = "startdir".data := by decide
  rw [e5, applyKV_key_startdir]

lemma processLine_line_extension (acc : Config) (d : List Char) :
    processLine acc ("Extension=".data ++ d)
      = { acc with Extension := trimSpace (rtrimBy isGoSpace d) } := by
  have e1 : "Extension=".data ++ d = "Extension".data ++ '=' :: d := rfl
  have e2 : trimSpace ("Extension".data ++ '=' :: d)
      = "Extension".data ++ '=' :: rtrimBy isGoSpace d := by
    rw [trimSpace_keyline '=' (by decide) _ _,
      show ltrimBy isGoSpace "Extension".data = "Extension".data from by decide]
  have e3 : splitFirst '=' (trimSpace ("Extension".data ++ '=' :: d))
      = some ("Extension".data, rtrimBy isGoSpace d) := by
    rw [e2]
    exact splitFirst_append_sep '=' _ _ (by decide)
  have e4 : (trimSpace ("Extension".data ++ '=' :: d)).head? ≠ some '#' := by
    rw [e2, show ("Extension".data ++ '=' :: rtrimBy isGoSpace d).head? = some 'E' from rfl]
    decide
  rw [e1, processLine_parsed acc _ _ _ e3 e4]
  have e5 : toLowerStr (trimSpace "Extension".data) = "extension".data := by decide
  rw [e5, applyKV_key_extension]

lemma processLine_line_pfxtostrip (acc : Config) (d : List Char) :
    processLine acc ("PrefixToStrip=".data ++ d)
      = { acc with PrefixToStrip := trimQuotes (trimSpace (rtrimBy isGoSpace d)) } := by
  have e1 : "PrefixToStrip=".data ++ d = "PrefixToStrip".data ++ '=' :: d := rfl
  have e2 : trimSpace ("PrefixToStrip".data ++ '=' :: d)
      = "PrefixToStrip".data ++ '=' :: rtrimBy isGoSpace d := by
    rw [trimSpace_keyline '=' (by decide) _ _,
      show ltrimBy isGoSpace "PrefixToStrip".data = "PrefixToStrip".data from by decide]
  have e3 : splitFirst '=' (trimSpace ("PrefixToStrip".data ++ '=' :: d))
      = some ("PrefixToStrip".data, rtrimBy isGoSpace d) := by
    rw [e2]
    exact splitFirst_append_sep '=' _ _ (by decide)
  have e4 : (trimSpace ("PrefixToStrip".data ++ '=' :: d)).head? ≠ some '#' := by
    rw [e2,
      show ("PrefixToStrip".data ++ '=' :: rtrimBy isGoSpace d).head? = some 'P' from rfl]
    decide
  rw [e1, processLine_parsed acc _ _ _ e3 e4]
  have e5 : toLowerStr (trimSpace "PrefixToStrip".data) = "prefixtostrip".data := by decide
  rw [e5, applyKV_key_prefixtostrip]

lemma processLine_line_showsuccess (acc : Config) (b : Bool) :
    processLine acc ("ShowSuccessMessage=".data ++ fmtBool b)
      = { acc with ShowSuccess := b } := by
  cases b
  · have hs : splitFirst '=' (trimSpace ("ShowSuccessMessage=".data ++ fmtBool false))
        = some ("ShowSuccessMessage".data, "false".data) := by decide
    have hh : (trimSpace ("ShowSuccessMessage=".data ++ fmtBool false)).head? ≠ some '#' := by
      decide
    rw [processLine_parsed acc _ _ _ hs hh,
      show toLowerStr (trimSpace "ShowSuccessMessage".data) = "showsuccessmessage".data
        from by decide,
      applyKV_key_showsuccess,
      show decide (trimSpace "false".data = "true".data) = false from by decide]
  · have hs : splitFirst '=' (trimSpace ("ShowSuccessMessage=".data ++ fmtBool true))
        = some ("ShowSuccessMessage".data, "true".data) := by decide
    have hh : (trimSpace ("ShowSuccessMessage=".data ++ fmtBool true)).head? ≠ some '#' := by
      decide
    rw [processLine_parsed acc _ _ _ hs hh,
      show toLowerStr (trimSpace "ShowSuccessMessage".data) = "showsuccessmessage".data
        from by decide,
      applyKV_key_showsuccess,
      show decide (trimSpace "true".data = "true".data) = true from by decide]

lemma processLine_line_autosave (acc : Config) (b : Bool) :
    processLine acc ("AutoSave=".data ++ fmtBool b) = { acc with AutoSave := b } := by
  cases b
  · have hs : splitFirst '=' (trimSpace ("AutoSave=".data ++ fmtBool false))
        = some ("AutoSave".data, "false".data) := by decide
    have hh : (trimSpace ("AutoSave=".data ++ fmtBool false)).head? ≠ some '#' := by decide
    rw [processLine_parsed acc _ _ _ hs hh,
      show toLowerStr (trimSpace "AutoSave".data) = "autosave".data from by decide,
      applyKV_key_autosave,
      show decide (trimSpace "false".data = "true".data) = false from by decide]
  · have hs : splitFirst '=' (trimSpace ("AutoSave=".data ++ fmtBool true))
        = some ("AutoSave".data, "true".data) := by decide
    have hh : (trimSpace ("AutoSave=".data ++ fmtBool true)).head? ≠ some '#' := by decide
    rw [processLine_parsed acc _ _ _ hs hh,
      show toLowerStr (trimSpace "AutoSave".data) = "autosave".data from by decide,
      applyKV_key_autosave,
      show decide (trimSpace "true".data = "true".data) = true from by decide]

lemma processLine_line_gitautocommit (acc : Config) (b : Bool) :
    processLine acc ("GitAutoCommit=".data ++ fmtBool b)
      = { acc with GitAutoCommit := b } := by
  cases b
  · have hs : splitFirst '=' (trimSpace ("GitAutoCommit=".data ++ fmtBool false))
        = some ("GitAutoCommit".data, "false".data) := by decide
    have hh : (trimSpace ("GitAutoCommit=".data ++ fmtBool false)).head? ≠ some '#' := by
      decide
    rw [processLine_parsed acc _ _ _ hs hh,
      show toLowerStr (trimSpace "GitAutoCommit".data) = "gitautocommit".data from by decide,
      applyKV_key_gitautocommit,
      show decide (trimSpace "false".data = "true".data) = false from by decide]
  · have hs : splitFirst '=' (trimSpace ("GitAutoCommit=".data ++ fmtBool true))
        = some ("GitAutoCommit".data, "true".data) := by decide
    have hh : (trimSpace ("GitAutoCommit=".data ++ fmtBool true)).head? ≠ some '#' := by
      decide
    rw [processLine_parsed acc _ _ _ hs hh,
      show toLowerStr (trimSpace "GitAutoCommit".data) = "gitautocommit".data from by decide,
      applyKV_key_gitautocommit,
      show decide (trimSpace "true".data = "true".data) = true from by decide]

/-! The full load-of-save computation. -/

lemma configFileLines_no_newline (d e p : List Char) (b1 b2 b3 : Bool)
    (hd : '\n' ∉ d) (he : '\n' ∉ e) (hp : '\n' ∉ p) :
    ∀ l ∈ configFileLines ⟨d, e, p, b1, b2, b3⟩, '\n' ∉ l := by
  intro l hl
  simp only [configFileLines, List.mem_cons, List.not_mem_nil, or_false] at hl
  rcases hl with rfl | rfl | rfl | rfl | rfl | rfl | rfl | rfl | rfl | rfl | rfl | rfl | rfl |
    rfl | rfl | rfl | rfl | rfl | rfl | rfl | rfl | rfl | rfl | rfl | rfl | rfl | rfl | rfl
  all_goals first
    | decide
    | (simp only [List.mem_append, not_or]
       exact ⟨by decide, by assumption⟩)
    | (cases b1 <;> decide)
    | (cases b2 <;> decide)
    | (cases b3 <;> decide)

lemma load_of_save (d e p : List Char) (b1 b2 b3 : Bool)
    (hd : '\n' ∉ d) (he : '\n' ∉ e) (hp : '\n' ∉ p) :
    loadConfigFromContent (saveConfigContent ⟨d, e, p, b1, b2, b3⟩)
      = { StartDir := trimSpace (rtrimBy isGoSpace d),
          Extension := trimSpace (rtrimBy isGoSpace e),
          PrefixToStrip := trimQuotes (trimSpace (rtrimBy isGoSpace p)),
          ShowSuccess := b1, AutoSave := b2, GitAutoCommit := b3 } := by
  have hsplit := splitOnChar_joinNL _ (configFileLines_no_newline d e p b1 b2 b3 hd he hp)
  unfold loadConfigFromContent
  rw [show saveConfigContent ⟨d, e, p, b1, b2, b3⟩
      = joinLinesNL (configFileLines ⟨d, e, p, b1, b2, b3⟩) from rfl, hsplit,
    List.foldl_append]
  simp only [configFileLines]
  rw [foldl_step _ _ _ _ (processLine_blank _ _ (by decide)), List.foldl_nil]
  rw [foldl_step _ _ _ _ (processLine_comment _ _ (by decide)),
    foldl_step _ _ _ _ (processLine_blank _ _ (by decide)),
    foldl_step _ _ _ _ (processLine_comment _ _ (by decide)),
    foldl_step _ _ _ _ (processLine_comment _ _ (by decide)),
    foldl_step _ _ _ _ (processLine_line_startdir _ d),
    foldl_step _ _ _ _ (processLine_blank _ _ (by decide)),
    foldl_step _ _ _ _ (processLine_comment _ _ (by decide)),
    foldl_step _ _ _ _ (processLine_comment _ _ (by decide)),
    foldl_step _ _ _ _ (processLine_line_extension _ e),
    foldl_step _ _ _ _ (processLine_blank _ _ (by decide)),
    foldl_step _ _ _ _ (processLine_comment _ _ (by decide)),
    foldl_step _ _ _ _ (processLine_comment _ _ (by decide)),
    foldl_step _ _ _ _ (processLine_comment _ _ (by decide)),
    foldl_step _ _ _ _ (processLine_comment _ _ (by decide)),
    foldl_step _ _ _ _ (processLine_line_pfxtostrip _ p),
    foldl_step _ _ _ _ (processLine_blank _ _ (by decide)),
    foldl_step _ _ _ _ (processLine_comment _ _ (by decide)),
    foldl_step _ _ _ _ (processLine_comment _ _ (by decide)),
    foldl_step _ _ _ _ (processLine_line_showsuccess _ b1),
    foldl_step _ _ _ _ (processLine_blank _ _ (by decide)),
    foldl_step _ _ _ _ (processLine_comment _ _ (by decide)),
    foldl_step _ _ _ _ (processLine_comment _ _ (by decide)),
    foldl_step _ _ _ _ (processLine_line_autosave _ b2),
    foldl_step _ _ _ _ (processLine_blank _ _ (by decide)),
    foldl_step _ _ _ _ (processLine_comment _ _ (by decide)),
    foldl_step _ _ _ _ (processLine_comment _ _ (by decide)),
    foldl_step _ _ _ _ (processLine_comment _ _ (by decide)),
    foldl_step _ _ _ _ (processLine_line_gitautocommit _ b3),
    List.foldl_nil]

/-! Claim theorems. -/

/-- C1 counterexample: saving the built-in default configuration, whose
PrefixToStrip is "void " with a trailing space, and loading the file back
yields PrefixToStrip "void": the write-then-read round trip is not the
identity on every representable configuration, because loadConfig trims each
line before parsing it. -/
theorem round_trip_counterexample :
    (loadConfigFromContent (saveConfigContent dgDefaultConfig)).PrefixToStrip
        ≠ dgDefaultConfig.PrefixToStrip ∧
    (loadConfigFromContent (saveConfigContent dgDefaultConfig)).PrefixToStrip
        = "void".data := by
  constructor
  · decide
  · decide

/-- C1 (amended): for every configuration whose StartDir, Extension and
PrefixToStrip contain no newline, whose Extension and PrefixToStrip carry no
leading or trailing whitespace, and whose PrefixToStrip neither begins nor
ends with a double-quote character, saving with the Config Store and loading
the resulting file preserves the extension, the prefix set string and the
three booleans. -/
theorem round_trip_preserves_fields (cfg : Config)
    (hdN : '\n' ∉ cfg.StartDir)
    (heN : '\n' ∉ cfg.Extension)
    (heL : ltrimBy isGoSpace cfg.Extension = cfg.Extension)
    (heR : rtrimBy isGoSpace cfg.Extension = cfg.Extension)
    (hpN : '\n' ∉ cfg.PrefixToStrip)
    (hpL : ltrimBy isGoSpace cfg.PrefixToStrip = cfg.PrefixToStrip)
    (hpR : rtrimBy isGoSpace cfg.PrefixToStrip = cfg.PrefixToStrip)
    (hqL : ltrimBy isQuoteChar cfg.PrefixToStrip = cfg.PrefixToStrip)
    (hqR : rtrimBy isQuoteChar cfg.PrefixToStrip = cfg.PrefixToStrip) :
    (loadConfigFromContent (saveConfigContent cfg)).Extension = cfg.Extension ∧
    (loadConfigFromContent (saveConfigContent cfg)).PrefixToStrip = cfg.PrefixToStrip ∧
    (loadConfigFromContent (saveConfigContent cfg)).ShowSuccess = cfg.ShowSuccess ∧
    (loadConfigFromContent (saveConfigContent cfg)).AutoSave = cfg.AutoSave ∧
    (loadConfigFromContent (saveConfigContent cfg)).GitAutoCommit = cfg.GitAutoCommit := by
  obtain ⟨d, e, p, b1, b2, b3⟩ := cfg
  simp only at hdN heN heL heR hpN hpL hpR hqL hqR
  rw [load_of_save d e p b1 b2 b3 hdN heN hpN]
  refine ⟨?_, ?_, rfl, rfl, rfl⟩
  · show trimSpace (rtrimBy isGoSpace e) = e
    rw [heR]
    unfold trimSpace trimBy
    rw [heL, heR]
  · show trimQuotes (trimSpace (rtrimBy isGoSpace p)) = p
    rw [hpR, show trimSpace p = p from by unfold trimSpace trimBy; rw [hpL, hpR]]
    unfold trimQuotes trimBy
    rw [hqL, hqR]

/-- C1 witness: a concrete trimmed configuration round-trips unchanged on the
five fields the claim names. -/
theorem round_trip_preserves_fields_witness :
    (loadConfigFromContent (saveConfigContent
        ⟨"repo".data, ".txt".data, "void |int".data, false, true, true⟩)).Extension
        = ".txt".data ∧
    (loadConfigFromContent (saveConfigContent
        ⟨"repo".data, ".txt".data, "void |int".data, false, true, true⟩)).PrefixToStrip
        = "void |int".data ∧
    (loadConfigFromContent (saveConfigContent
        ⟨"repo".data, ".txt".data, "void |int".data, false, true, true⟩)).ShowSuccess
        = false ∧
    (loadConfigFromContent (saveConfigContent
        ⟨"repo".data, ".txt".data, "void |int".data, false, true, true⟩)).AutoSave
        = true ∧
    (loadConfigFromContent (saveConfigContent
        ⟨"repo".data, ".txt".data, "void |int".data, false, true, true⟩)).GitAutoCommit
        = true :=
  round_trip_preserves_fields ⟨"repo".data, ".txt".data, "void |int".data, false, true, true⟩
    (by decide) (by decide) (by decide) (by decide) (by decide) (by decide) (by decide)
    (by decide) (by decide)

/-- C2 counterexample: a run with setup not cancelled and a successful
registry refresh that is a first run exits right after the registry
maintenance and never reaches the save phase. -/
theorem first_run_skips_save_counterexample :
    mainFlow false true true = RunOutcome.exitFirstRun ∧
    mainFlow false true true ≠ RunOutcome.savePhase := by
  decide

/-- C2 (amended): when config loading does not report cancellation, the
registry refresh succeeds and the run is not a first run, main proceeds to
the save phase (directory resolution and the save pipeline); a successful
first run instead exits after the registry refresh. -/
theorem main_reaches_save_phase (cancelled isFirstRun registryOk : Bool)
    (h1 : cancelled = false) (h2 : registryOk = true) (h3 : isFirstRun = false) :
    mainFlow cancelled isFirstRun registryOk = RunOutcome.savePhase := by
  subst h1
  subst h2
  subst h3
  rfl

/-- C2 witness: the non-first-run, non-cancelled, registry-ok instance. -/
theorem main_reaches_save_phase_witness :
    mainFlow false false true = RunOutcome.savePhase :=
  main_reaches_save_phase false false true rfl rfl rfl

/-- C3 counterexample: cancelling the Step 4 yes/no question (modelled by the
discarded second pair component being false) does not abort the wizard: the
cancelled flag is false and the configuration file is still written. -/
theorem wizard_question_cancel_ignored :
    (runSetupWizard (some "d".data) (some ".dg".data) (some "void ".data)
        (false, false) (true, true) (true, true)).2.1 = false ∧
    (runSetupWizard (some "d".data) (some ".dg".data) (some "void ".data)
        (false, false) (true, true) (true, true)).2.2 = true := by
  decide

/-- C3 (amended): cancelling the directory, extension or prefix step aborts
the whole wizard, returning the zero configuration with the cancelled flag
set and no configuration file written; the three yes/no questions discard
their cancellation flag and never abort. -/
theorem wizard_text_step_cancel_aborts (dirRes extRes pfxRes : Option (List Char))
    (gitAns autoAns shortcutAns : Bool × Bool)
    (h : dirRes = none ∨ extRes = none ∨ pfxRes = none) :
    runSetupWizard dirRes extRes pfxRes gitAns autoAns shortcutAns
      = (emptyConfig, true, false) := by
  rcases h with h | h | h
  · subst h
    rfl
  · subst h
    cases dirRes <;> rfl
  · subst h
    cases dirRes with
    | none => rfl
    | some d0 =>
      cases extRes with
      | none => rfl
      | some e0 => rfl

/-- C3 witness: cancelling the directory step aborts with nothing written. -/
theorem wizard_text_step_cancel_aborts_witness :
    runSetupWizard none (some ".dg".data) (some "void ".data) (true, true) (true, true)
      (true, true) = (emptyConfig, true, false) :=
  wizard_text_step_cancel_aborts none (some ".dg".data) (some "void ".data) (true, true)
    (true, true) (true, true) (Or.inl rfl)

/-- C4: with the prefix set "void |int |string ", the set splits on the pipe
into the candidates "void ", "int ", "string " in listed order, and any
clipboard whose computed first line is "void foo(){}" has the first matching
candidate "void " removed, the loop stopping there, so the derived base name
before the extension is appended is "foo(){}". -/
theorem derive_base_void_foo (content : List Char)
    (h : firstLineOf content = "void foo()\x7b\x7d".data) :
    splitOnChar '|' "void |int |string ".data
        = ["void ".data, "int ".data, "string ".data] ∧
    sanitizeFilename (trimSpace (stripFirstMatching "void |int |string ".data
        (firstLineOf content))) = "foo()\x7b\x7d".data := by
  constructor
  · decide
  · rw [h]
    decide

/-- C4 witness: a two-line clipboard starting with "void foo(){}". -/
theorem derive_base_void_foo_witness :
    firstLineOf "void foo()\x7b\x7d\nint x;".data = "void foo()\x7b\x7d".data ∧
    sanitizeFilename (trimSpace (stripFirstMatching "void |int |string ".data
        (firstLineOf "void foo()\x7b\x7d\nint x;".data))) = "foo()\x7b\x7d".data :=
  ⟨by decide, (derive_base_void_foo "void foo()\x7b\x7d\nint x;".data (by decide)).2⟩

/-- C5: for every first line containing an illegal filename character, the
sanitized name is the character-wise image replacing every illegal character
occurrence by an underscore, and no illegal character remains in it. -/
theorem sanitize_removes_illegal (name : List Char)
    (h : ∃ c ∈ illegalChars, c ∈ name) :
    sanitizeFilename name = name.map substIllegal ∧
    ∀ c ∈ illegalChars, c ∉ sanitizeFilename name := by
  constructor
  · exact sanitizeFilename_eq_map name
  · intro c hc hmem
    rw [sanitizeFilename_eq_map] at hmem
    obtain ⟨a, ha, hfa⟩ := List.mem_map.mp hmem
    by_cases h2 : a ∈ illegalChars
    · rw [substIllegal, if_pos h2] at hfa
      exact absurd (hfa ▸ hc) (by decide)
    · rw [substIllegal, if_neg h2] at hfa
      exact h2 (hfa ▸ hc)

/-- C5 witness: the name "a<b" contains an illegal character, sanitizes to
"a_b", and the result contains no illegal character. -/
theorem sanitize_removes_illegal_witness :
    (∃ c ∈ illegalChars, c ∈ "a<b".data) ∧
    (sanitizeFilename "a<b".data = ("a<b".data).map substIllegal ∧
      ∀ c ∈ illegalChars, c ∉ sanitizeFilename "a<b".data) :=
  ⟨by decide, sanitize_removes_illegal "a<b".data (by decide)⟩

/-- C6: the config parser ignores blank lines, comment lines and lines
without an equals sign; splits each remaining line at its first equals sign;
matches keys case-insensitively after trimming; ignores unrecognized keys;
sets each boolean field true exactly for the literal trimmed value "true";
and every recognized key that no line effectively sets keeps its built-in
default, the defaults being StartDir ".", extension ".dg", prefix "void ",
success message on, auto-save off and git off. -/
theorem load_config_parse_rules :
    (∀ acc raw, trimSpace raw = [] → processLine acc raw = acc) ∧
    (∀ acc raw, (trimSpace raw).head? = some '#' → processLine acc raw = acc) ∧
    (∀ acc raw, '=' ∉ trimSpace raw → processLine acc raw = acc) ∧
    (∀ acc raw k v, splitFirst '=' (trimSpace raw) = some (k, v) →
      (trimSpace raw).head? ≠ some '#' →
      toLowerStr (trimSpace k) ∉ recognizedKeys → processLine acc raw = acc) ∧
    (∀ acc raw k v, splitFirst '=' (trimSpace raw) = some (k, v) →
      (trimSpace raw).head? ≠ some '#' →
      toLowerStr (trimSpace k) = "showsuccessmessage".data →
      ((processLine acc raw).ShowSuccess = true ↔ trimSpace v = "true".data)) ∧
    (∀ acc raw k v, splitFirst '=' (trimSpace raw) = some (k, v) →
      (trimSpace raw).head? ≠ some '#' →
      toLowerStr (trimSpace k) = "autosave".data →
      ((processLine acc raw).AutoSave = true ↔ trimSpace v = "true".data)) ∧
    (∀ acc raw k v, splitFirst '=' (trimSpace raw) = some (k, v) →
      (trimSpace raw).head? ≠ some '#' →
      toLowerStr (trimSpace k) = "gitautocommit".data →
      ((processLine acc raw).GitAutoCommit = true ↔ trimSpace v = "true".data)) ∧
    dgDefaultConfig = ⟨".".data, ".dg".data, "void ".data, true, false, false⟩ ∧
    (∀ content K, K ∈ recognizedKeys →
      (∀ l ∈ splitOnChar '\n' content, effectiveKeyOf l ≠ some K) →
      agreeOn K (loadConfigFromContent content) dgDefaultConfig) := by
  refine ⟨processLine_blank, processLine_comment, ?_, ?_, ?_, ?_, ?_, rfl, ?_⟩
  · intro acc raw h
    exact processLine_no_eq acc raw (splitFirst_of_no_sep '=' _ h)
  · intro acc raw k v hs hh hk
    rw [processLine_parsed acc raw k v hs hh]
    exact applyKV_unrecognized acc _ _ hk
  · intro acc raw k v hs hh hk
    rw [processLine_parsed acc raw k v hs hh, hk, applyKV_key_showsuccess]
    show decide (trimSpace v = "true".data) = true ↔ trimSpace v = "true".data
    exact decide_eq_true_iff
  · intro acc raw k v hs hh hk
    rw [processLine_parsed acc raw k v hs hh, hk, applyKV_key_autosave]
    show decide (trimSpace v = "true".data) = true ↔ trimSpace v = "true".data
    exact decide_eq_true_iff
  · intro acc raw k v hs hh hk
    rw [processLine_parsed acc raw k v hs hh, hk, applyKV_key_gitautocommit]
    show decide (trimSpace v = "true".data) = true ↔ trimSpace v = "true".data
    exact decide_eq_true_iff
  · intro content K _ h
    exact foldl_processLine_agree (splitOnChar '\n' content) dgDefaultConfig K h

/-- C7: with an empty clipboard or a failed clipboard read, the save pipeline
performs no effect at all: no file written, no dialog shown, no commit, no
clipboard clear, no notification. -/
theorem empty_clipboard_aborts_silently (cfg : Config) (clip : Option (List Char))
    (writeOk : Bool) (h : clip = none ∨ clip = some []) :
    runPipeline cfg clip writeOk = noEffects := by
  rcases h with h | h <;> subst h <;> rfl

/-- C7 witness: the empty-clipboard instance. -/
theorem empty_clipboard_aborts_silently_witness :
    runPipeline dgDefaultConfig (some []) true = noEffects :=
  empty_clipboard_aborts_silently dgDefaultConfig (some []) true (Or.inr rfl)

/-- C8: invoked with no command-line argument, auto-save enabled and the
configured default directory existing, the save directory resolves to the
configured default and the interactive folder prompt is not shown. -/
theorem autosave_uses_default_dir (cfg : Config) (startDirExists : Bool)
    (dialogResult : List Char) (h1 : cfg.AutoSave = true) (h2 : startDirExists = true) :
    resolveSaveDir [] cfg startDirExists dialogResult = (cfg.StartDir, false) := by
  subst h2
  unfold resolveSaveDir
  rw [h1]
  rfl

/-- C8 witness: a concrete auto-save configuration with an existing default
directory. -/
theorem autosave_uses_default_dir_witness :
    resolveSaveDir [] ⟨"d".data, ".dg".data, "void ".data, true, true, false⟩ true "x".data
      = ("d".data, false) :=
  autosave_uses_default_dir ⟨"d".data, ".dg".data, "void ".data, true, true, false⟩ true
    "x".data rfl rfl

/-- C9: when no non-empty candidate of the configured prefix set matches the
start of the computed first line, the derived base name before sanitization
and extension equals the trimmed first line, with nothing removed. -/
theorem no_pfx_match_keeps_first_line (cfg : Config) (content : List Char)
    (h : ∀ q ∈ splitOnChar '|' cfg.PrefixToStrip, q ≠ [] →
      hasPfx (firstLineOf content) q = false) :
    trimSpace (stripFirstMatching cfg.PrefixToStrip (firstLineOf content))
      = firstLineOf content := by
  have hstrip : stripFirstMatching cfg.PrefixToStrip (firstLineOf content)
      = firstLineOf content := by
    unfold stripFirstMatching
    by_cases hp : cfg.PrefixToStrip = []
    · rw [if_pos hp]
    · rw [if_neg hp]
      exact stripLoop_no_match _ _ h
  rw [hstrip]
  unfold firstLineOf
  exact trimSpace_idem _

/-- C9 witness: the default prefix set does not match "hello", which is kept
verbatim. -/
theorem no_pfx_match_keeps_first_line_witness :
    trimSpace (stripFirstMatching dgDefaultConfig.PrefixToStrip
        (firstLineOf "hello\nx".data)) = firstLineOf "hello\nx".data :=
  no_pfx_match_keeps_first_line dgDefaultConfig "hello\nx".data (by decide)

/-- C10: the empty-name abort is checked only before prefix stripping: when
the trimmed first line is non-empty but stripping the matching prefix and
re-trimming leaves the empty string, the pipeline does not abort and, with
the write succeeding, writes a file whose name is exactly the configured
extension. -/
theorem empty_after_strip_writes_extension_only (cfg : Config) (content : List Char)
    (h1 : firstLineOf content ≠ [])
    (h2 : trimSpace (stripFirstMatching cfg.PrefixToStrip (firstLineOf content)) = []) :
    (runPipeline cfg (some content) true).fileWritten = some cfg.Extension := by
  have hc : content ≠ [] := by
    intro h0
    subst h0
    exact h1 rfl
  have hred : runPipeline cfg (some content) true
      = if content = [] then noEffects
        else if firstLineOf content = [] then noEffects
        else if (true : Bool) = false then { noEffects with errorDialog := true }
        else
          { fileWritten := some (deriveSafeFilename cfg content)
            errorDialog := false
            gitRan := cfg.GitAutoCommit
            clipboardCleared := true
            successShown := cfg.ShowSuccess } := rfl
  rw [hred, if_neg hc, if_neg h1, if_neg (by decide : ¬ ((true : Bool) = false))]
  show some (deriveSafeFilename cfg content) = some cfg.Extension
  unfold deriveSafeFilename
  rw [h2]
  rfl

/-- C10 witness: prefix set "void" and clipboard "void\nbody": the first line
is non-empty, strips to the empty string, and the written file is named
exactly ".dg". -/
theorem empty_after_strip_writes_extension_only_witness :
    firstLineOf "void\nbody".data ≠ [] ∧
    trimSpace (stripFirstMatching "void".data (firstLineOf "void\nbody".data)) = [] ∧
    (runPipeline ⟨".".data, ".dg".data, "void".data, true, false, false⟩
        (some "void\nbody".data) true).fileWritten = some ".dg".data :=
  ⟨by decide, by decide,
    empty_after_strip_writes_extension_only
      ⟨".".data, ".dg".data, "void".data, true, false, false⟩ "void\nbody".data
      (by decide) (by decide)⟩

end DgGit
